import Mathlib

/-!
Verification of the deep-link ingestion/deduplication pipeline of the
`react-native-linkzly-sdk` bridge (`src/index.tsx`, class `LinkzlySDK`).

The JavaScript code is shallowly embedded:

* JS `Map` (insertion-ordered, keys unique) and plain objects used as
  string-keyed dictionaries are modelled as association lists
  (`List (String × α)`) with update-in-place-or-append assignment
  (`jsMapSet`) and filtering deletion (`jsMapDelete`), which matches the
  mutation behaviour of `Map.set` / `obj[k] = v` / `Map.delete` /
  `delete obj[k]` exactly, including iteration order.
* JS `Set` of strings is a duplicate-free `List String` (`jsSetAdd` /
  `jsSetDelete` / `jsSetHas`).
* `String.prototype.split` with a one-character separator is `splitAll`.
* `decodeURIComponent` is `decodeCore` / `jsDecodeURIComponent`, an
  implementation of the ECMAScript Decode algorithm with an empty
  reserved set (percent-escapes are read as bytes and strictly
  UTF-8-decoded; any malformation yields `none`, the model of a thrown
  `URIError`).
* Timestamps are `Nat`.  The JS guards of the form
  `lastProcessed && (now - lastProcessed) < W` are modelled as
  `t ≠ 0 ∧ now - t < W`: `0` is falsy in JS, and for `now < t` the JS
  signed difference is negative (hence `< W` holds) while the `Nat`
  difference is `0` (hence `< W` also holds), so the two agree.
* The stateful methods become explicit state-passing functions over
  `SDKState`; the single awaited native call inside `processDeepLink`
  (`handleUniversalLink`) is the one fallible step of the pipeline and
  is passed in as an `Except` value describing its outcome.
-/

namespace Linkzly

/-- Lookup in a JS `Map` / plain-object dictionary (`m.get(k)` / `m[k]`):
first entry with the given key. -/
def jsMapGet {α : Type} (m : List (String × α)) (k : String) : Option α :=
  match m with
  | [] => none
  | (k', v) :: rest => if k' = k then some v else jsMapGet rest k

/-- Assignment in a JS `Map` / plain-object dictionary (`m.set(k, v)` /
`m[k] = v`): update an existing key in place, else append. -/
def jsMapSet {α : Type} (m : List (String × α)) (k : String) (v : α) :
    List (String × α) :=
  match m with
  | [] => [(k, v)]
  | (k', v') :: rest =>
    if k' = k then (k, v) :: rest else (k', v') :: jsMapSet rest k v

/-- Deletion in a JS `Map` / plain-object dictionary (`m.delete(k)` /
`delete m[k]`). -/
def jsMapDelete {α : Type} (m : List (String × α)) (k : String) :
    List (String × α) :=
  m.filter (fun e => !(e.1 = k : Bool))

/-- JS `Set.prototype.has`. -/
def jsSetHas (s : List String) (u : String) : Bool :=
  match s with
  | [] => false
  | x :: rest => if x = u then true else jsSetHas rest u

/-- JS `Set.prototype.add` (no-op when already present, else append). -/
def jsSetAdd (s : List String) (u : String) : List String :=
  if jsSetHas s u then s else s ++ [u]

/-- JS `Set.prototype.delete`. -/
def jsSetDelete (s : List String) (u : String) : List String :=
  s.filter (fun x => !(x = u : Bool))

@[simp] theorem jsMapGet_nil {α : Type} (k : String) :
    jsMapGet ([] : List (String × α)) k = none := rfl

@[simp] theorem jsMapGet_cons {α : Type} (k' : String) (v : α) (rest k) :
    jsMapGet ((k', v) :: rest) k =
      (if k' = k then some v else jsMapGet rest k) := rfl

theorem jsMapGet_jsMapSet_self {α : Type} (m : List (String × α)) (k v) :
    jsMapGet (jsMapSet m k v) k = some v := by
  induction m with
  | nil => simp [jsMapSet]
  | cons e rest ih =>
    obtain ⟨k', v'⟩ := e
    by_cases h : k' = k <;> simp [jsMapSet, h, ih]

theorem jsMapGet_jsMapSet_ne {α : Type} (m : List (String × α)) (k k' v)
    (h : k ≠ k') : jsMapGet (jsMapSet m k v) k' = jsMapGet m k' := by
  induction m with
  | nil => simp [jsMapSet, h]
  | cons e rest ih =>
    obtain ⟨k0, v0⟩ := e
    by_cases h0 : k0 = k
    · subst h0; simp [jsMapSet, h]
    · simp [jsMapSet, h0, ih]

@[simp] theorem jsMapDelete_nil {α : Type} (k : String) :
    jsMapDelete ([] : List (String × α)) k = [] := rfl

theorem jsMapDelete_cons {α : Type} (k0 : String) (v0 : α) (rest k) :
    jsMapDelete ((k0, v0) :: rest) k =
      (if k0 = k then jsMapDelete rest k
       else (k0, v0) :: jsMapDelete rest k) := by
  by_cases h : k0 = k <;> simp [jsMapDelete, List.filter_cons, h]

theorem jsMapGet_jsMapDelete_self {α : Type} (m : List (String × α)) (k) :
    jsMapGet (jsMapDelete m k) k = none := by
  induction m with
  | nil => rfl
  | cons e rest ih =>
    obtain ⟨k0, v0⟩ := e
    by_cases h0 : k0 = k <;> simp [jsMapDelete_cons, h0, ih]

theorem jsMapGet_jsMapDelete_ne {α : Type} (m : List (String × α)) (k k')
    (h : k ≠ k') : jsMapGet (jsMapDelete m k) k' = jsMapGet m k' := by
  induction m with
  | nil => rfl
  | cons e rest ih =>
    obtain ⟨k0, v0⟩ := e
    by_cases h0 : k0 = k
    · subst h0
      simp [jsMapDelete_cons, ih, jsMapGet_cons, h]
    · simp [jsMapDelete_cons, h0, ih]

theorem jsMapDelete_of_not_mem {α : Type} (m : List (String × α)) (k)
    (h : jsMapGet m k = none) : jsMapDelete m k = m := by
  induction m with
  | nil => rfl
  | cons e rest ih =>
    obtain ⟨k0, v0⟩ := e
    by_cases h0 : k0 = k
    · simp [h0] at h
    · simp [jsMapGet_cons, h0] at h
      simp [jsMapDelete_cons, h0, ih h]

@[simp] theorem jsSetHas_nil (u : String) : jsSetHas [] u = false := rfl

@[simp] theorem jsSetHas_cons (x : String) (rest u) :
    jsSetHas (x :: rest) u = (if x = u then true else jsSetHas rest u) := rfl

theorem jsSetHas_append_self (s : List String) (u : String) :
    jsSetHas (s ++ [u]) u = true := by
  induction s with
  | nil => simp
  | cons x rest ih =>
    by_cases h : x = u <;> simp [h, ih]

theorem jsSetHas_jsSetAdd_self (s : List String) (u : String) :
    jsSetHas (jsSetAdd s u) u = true := by
  cases h : jsSetHas s u <;> simp [jsSetAdd, h, jsSetHas_append_self]

theorem jsSetHas_jsSetDelete (s : List String) (u : String) :
    jsSetHas (jsSetDelete s u) u = false := by
  induction s with
  | nil => rfl
  | cons x rest ih =>
    by_cases h : x = u <;> simp [jsSetDelete, List.filter_cons, h] at ih ⊢ <;>
      simpa [jsSetDelete, h] using ih

/-- Split a character list at the first occurrence of `sep`, returning the
part before and the part after (used to model the forced split point of a
greedy negated character class followed by a literal in the regexes of
`parseUrlToDeepLinkData`). -/
def splitFirst (sep : Char) : List Char → Option (List Char × List Char)
  | [] => none
  | c :: rest =>
    if c = sep then some ([], rest)
    else (splitFirst sep rest).map (fun p => (c :: p.1, p.2))

/-- JS `String.prototype.split` with a one-character separator:
`splitAll sep cs` returns the (never empty) list of fragments. -/
def splitAll (sep : Char) : List Char → List (List Char)
  | [] => [[]]
  | c :: rest =>
    if c = sep then [] :: splitAll sep rest
    else
      match splitAll sep rest with
      | h :: t => (c :: h) :: t
      | [] => [[c]]

theorem splitFirst_of_not_mem {sep : Char} {a : List Char} (h : sep ∉ a)
    (b : List Char) : splitFirst sep (a ++ sep :: b) = some (a, b) := by
  induction a with
  | nil => simp [splitFirst]
  | cons c rest ih =>
    have hc : c ≠ sep := fun hcc => h (hcc ▸ List.mem_cons_self c rest)
    have hrest : sep ∉ rest := fun hm => h (List.mem_cons_of_mem c hm)
    simp [splitFirst, hc, ih hrest]

theorem splitFirst_eq_none {sep : Char} {a : List Char} (h : sep ∉ a) :
    splitFirst sep a = none := by
  induction a with
  | nil => rfl
  | cons c rest ih =>
    have hc : c ≠ sep := fun hcc => h (hcc ▸ List.mem_cons_self c rest)
    have hrest : sep ∉ rest := fun hm => h (List.mem_cons_of_mem c hm)
    simp [splitFirst, hc, ih hrest]

theorem splitAll_ne_nil (sep : Char) (cs : List Char) :
    splitAll sep cs ≠ [] := by
  induction cs with
  | nil => simp [splitAll]
  | cons c rest ih =>
    by_cases h : c = sep
    · simp [splitAll, h]
    · simp only [splitAll, if_neg h]
      rcases hs : splitAll sep rest with _ | ⟨h0, t0⟩ <;> simp

theorem splitAll_of_not_mem {sep : Char} {a : List Char} (h : sep ∉ a) :
    splitAll sep a = [a] := by
  induction a with
  | nil => rfl
  | cons c rest ih =>
    have hc : c ≠ sep := fun hcc => h (hcc ▸ List.mem_cons_self c rest)
    have hrest : sep ∉ rest := fun hm => h (List.mem_cons_of_mem c hm)
    simp [splitAll, hc, ih hrest]

theorem splitAll_append {sep : Char} {a : List Char} (h : sep ∉ a)
    (b : List Char) : splitAll sep (a ++ sep :: b) = a :: splitAll sep b := by
  induction a with
  | nil => simp [splitAll]
  | cons c rest ih =>
    have hc : c ≠ sep := fun hcc => h (hcc ▸ List.mem_cons_self c rest)
    have hrest : sep ∉ rest := fun hm => h (List.mem_cons_of_mem c hm)
    simp [splitAll, hc, ih hrest]

/-- Value of a hexadecimal digit character (both cases), as used by the
escape sequences accepted by `decodeURIComponent`. -/
def hexDigit (c : Char) : Option Nat :=
  let n := c.toNat
  if 48 ≤ n ∧ n ≤ 57 then some (n - 48)
  else if 65 ≤ n ∧ n ≤ 70 then some (n - 55)
  else if 97 ≤ n ∧ n ≤ 102 then some (n - 87)
  else none

/-- Byte value of a two-hex-digit escape body. -/
def hexByte (c1 c2 : Char) : Option Nat :=
  match hexDigit c1, hexDigit c2 with
  | some a, some b => some (16 * a + b)
  | _, _ => none

/-- UTF-8 continuation byte. -/
def isCont (b : Nat) : Bool := decide (0x80 ≤ b ∧ b ≤ 0xBF)

/-- Second byte constraint of a 3-byte UTF-8 sequence (excludes overlong
forms for `0xE0` and surrogate code points for `0xED`). -/
def cont3ok (b b2 : Nat) : Bool :=
  if b = 0xE0 then decide (0xA0 ≤ b2 ∧ b2 ≤ 0xBF)
  else if b = 0xED then decide (0x80 ≤ b2 ∧ b2 ≤ 0x9F)
  else isCont b2

/-- Second byte constraint of a 4-byte UTF-8 sequence (excludes overlong
forms for `0xF0` and code points above `0x10FFFF` for `0xF4`). -/
def cont4ok (b b2 : Nat) : Bool :=
  if b = 0xF0 then decide (0x90 ≤ b2 ∧ b2 ≤ 0xBF)
  else if b = 0xF4 then decide (0x80 ≤ b2 ∧ b2 ≤ 0x8F)
  else isCont b2

/-- First pass of the ECMAScript `Decode` algorithm underlying
`decodeURIComponent`: turn the input into a stream of verbatim characters
(`Sum.inl`) and escape bytes (`Sum.inr`); a `%` not followed by two hex
digits is a `URIError` (`none`). -/
def tokenize : List Char → Option (List (Char ⊕ Nat))
  | [] => some []
  | c :: rest =>
    if c = '%' then
      match rest with
      | h1 :: h2 :: rest2 =>
        match hexByte h1 h2 with
        | some b => (tokenize rest2).map (fun t => Sum.inr b :: t)
        | none => none
      | _ => none
    else (tokenize rest).map (fun t => Sum.inl c :: t)

/-- Second pass of `Decode`: verbatim characters are copied; escape bytes
must form complete, strictly valid UTF-8 sequences of consecutive escapes
(overlong forms, surrogates and values above `0x10FFFF` rejected), which
become the decoded characters.  `none` models a thrown `URIError`. -/
def utf8Assemble : List (Char ⊕ Nat) → Option (List Char)
  | [] => some []
  | Sum.inl c :: rest => (utf8Assemble rest).map (fun t => c :: t)
  | Sum.inr b :: rest =>
    if b < 0x80 then (utf8Assemble rest).map (fun t => Char.ofNat b :: t)
    else if 0xC2 ≤ b ∧ b ≤ 0xDF then
      match rest with
      | Sum.inr b2 :: rest2 =>
        if isCont b2 then
          (utf8Assemble rest2).map
            (fun t => Char.ofNat (0x40 * (b - 0xC0) + (b2 - 0x80)) :: t)
        else none
      | _ => none
    else if 0xE0 ≤ b ∧ b ≤ 0xEF then
      match rest with
      | Sum.inr b2 :: Sum.inr b3 :: rest2 =>
        if cont3ok b b2 && isCont b3 then
          (utf8Assemble rest2).map (fun t =>
            Char.ofNat
              (0x1000 * (b - 0xE0) + 0x40 * (b2 - 0x80) + (b3 - 0x80)) :: t)
        else none
      | _ => none
    else if 0xF0 ≤ b ∧ b ≤ 0xF4 then
      match rest with
      | Sum.inr b2 :: Sum.inr b3 :: Sum.inr b4 :: rest2 =>
        if cont4ok b b2 && isCont b3 && isCont b4 then
          (utf8Assemble rest2).map (fun t =>
            Char.ofNat
              (0x40000 * (b - 0xF0) + 0x1000 * (b2 - 0x80) +
                0x40 * (b3 - 0x80) + (b4 - 0x80)) :: t)
        else none
      | _ => none
    else none

/-- The `Decode` algorithm with an empty reserved set, on character
lists. -/
def decodeCore (cs : List Char) : Option (List Char) :=
  (tokenize cs).bind utf8Assemble

/-- Model of `decodeURIComponent` on strings; `none` models a thrown `URIError`. -/
def jsDecodeURIComponent (s : String) : Option String :=
  (decodeCore s.toList).map List.asString

theorem tokenize_cons_ne {c : Char} (hc : c ≠ '%') (rest : List Char) :
    tokenize (c :: rest) = (tokenize rest).map (fun t => Sum.inl c :: t) := by
  conv_lhs => unfold tokenize
  rw [if_neg hc]

theorem utf8Assemble_inl_cons (c : Char) (rest : List (Char ⊕ Nat)) :
    utf8Assemble (Sum.inl c :: rest) =
      (utf8Assemble rest).map (fun t => c :: t) := rfl

theorem tokenize_of_not_percent {cs : List Char} (h : '%' ∉ cs) :
    tokenize cs = some (cs.map Sum.inl) := by
  induction cs with
  | nil => rfl
  | cons c rest ih =>
    have hc : c ≠ '%' := fun hcc => h (hcc ▸ List.mem_cons_self c rest)
    have hrest : '%' ∉ rest := fun hm => h (List.mem_cons_of_mem c hm)
    rw [tokenize_cons_ne hc, ih hrest]
    rfl

theorem utf8Assemble_map_inl (cs : List Char) :
    utf8Assemble (cs.map Sum.inl) = some cs := by
  induction cs with
  | nil => rfl
  | cons c rest ih =>
    rw [List.map_cons, utf8Assemble_inl_cons, ih]
    rfl

theorem decodeCore_of_not_percent {cs : List Char} (h : '%' ∉ cs) :
    decodeCore cs = some cs := by
  simp [decodeCore, tokenize_of_not_percent h, utf8Assemble_map_inl]

/-- The public `DeepLinkData` record.  Optional string fields are
`Option String` (`none` = JS `undefined`); `parameters` is the
insertion-ordered key/value list of a plain JS object whose values are
strings. -/
structure DeepLinkData where
  url : Option String
  path : Option String
  parameters : List (String × String)
  smartLinkId : Option String
  clickId : Option String
deriving Repr, DecidableEq

/-- The public `UniversalLinkEvent` payload. -/
structure UniversalLinkEvent where
  url : String
  path : Option String
  parameters : List (String × String)
  attributionData : Option (List (String × String))
deriving Repr, DecidableEq

/-- JS `a || b` on optional strings: `undefined` and the empty string are
falsy, so `b` is returned for those; otherwise `a`. -/
def jsOrStr (a b : Option String) : Option String :=
  match a with
  | some s => if s = "" then b else some s
  | none => b

/-- JS regex `.` excludes the four line terminators (LF, CR, LS, PS). -/
def lineTerm (c : Char) : Bool :=
  c = '\n' || c = '\r' || c = Char.ofNat 0x2028 || c = Char.ofNat 0x2029

/-- Model of `urlWithoutQuery.match(/^[^:]+:\/\/[^\/]+(\/.*)?$/)`
restricted to its use site: returns the text of capture group 1 when the
regex matches with the group defined (the group, when defined, starts
with `/` and is therefore truthy).  The greedy `[^:]+` is forced to stop
at the first `:`; `[^\/]+` (the host) is forced to stop at the first `/`;
`.*` rejects line terminators; when the input has no `/` after the host
the group is undefined and the caller falls through to the custom-scheme
regex, which is also the behaviour when the whole match fails, so both
cases are `none` here. -/
def standardMatchGroup (cs : List Char) : Option (List Char) :=
  match splitFirst ':' cs with
  | none => none
  | some (scheme, rest) =>
    if scheme = [] then none
    else
      match rest with
      | '/' :: '/' :: c =>
        match splitFirst '/' c with
        | none => none
        | some (host, tail) =>
          if host = [] then none
          else if tail.any lineTerm then none
          else some ('/' :: tail)
      | _ => none

/-- Model of `urlWithoutQuery.match(/^[^:]+:\/\/(.+)$/)` at its use site:
capture group 1 when the regex matches (`.+` rejects line terminators and
must be non-empty, so a defined group is always truthy). -/
def customMatchGroup (cs : List Char) : Option (List Char) :=
  match splitFirst ':' cs with
  | none => none
  | some (scheme, rest) =>
    if scheme = [] then none
    else
      match rest with
      | '/' :: '/' :: c =>
        if c = [] then none
        else if c.any lineTerm then none
        else some c
      | _ => none

/-- Body of the `params.forEach((param) => ...)` loop of
`parseUrlToDeepLinkData`: `param.split('=')` is destructured into its
first two fragments (`const [key, value] = ...`); the pair is skipped
when the key is empty or the value is empty/undefined (`if (key &&
value)`); both parts are `decodeURIComponent`-decoded, falling back to
the raw key and value if either decode throws. -/
def processParam (acc : List (String × String)) (param : List Char) :
    List (String × String) :=
  match splitAll '=' param with
  | key :: value :: _ =>
    if key ≠ [] ∧ value ≠ [] then
      match decodeCore key, decodeCore value with
      | some dk, some dv => jsMapSet acc dk.asString dv.asString
      | _, _ => jsMapSet acc key.asString value.asString
    else acc
  | _ => acc

/-- Model of `parseUrlToDeepLinkData` (src/index.tsx:605): split on `?`, extract
the path via the two regexes, build the parameter object from the first
inter-`?` fragment, hoist `slid`/`smartLinkId`/`cid`/`clickId` to the
top-level fields and delete them from `parameters`. -/
def parseUrlToDeepLinkData (url : String) : DeepLinkData :=
  let urlParts := splitAll '?' url.toList
  let urlWithoutQuery := urlParts.headD []
  let path : List Char :=
    match standardMatchGroup urlWithoutQuery with
    | some p => p
    | none =>
      match customMatchGroup urlWithoutQuery with
      | some rest => '/' :: rest
      | none => ['/']
  let parameters : List (String × String) :=
    match urlParts with
    | _ :: queryString :: _ => (splitAll '&' queryString).foldl processParam []
    | _ => []
  let smartLinkId := jsOrStr (jsMapGet parameters "slid")
    (jsOrStr (jsMapGet parameters "smartLinkId") none)
  let clickId := jsOrStr (jsMapGet parameters "cid")
    (jsOrStr (jsMapGet parameters "clickId") none)
  let parameters2 :=
    jsMapDelete (jsMapDelete (jsMapDelete (jsMapDelete parameters
      "slid") "smartLinkId") "cid") "clickId"
  { url := some url
    path := some path.asString
    parameters := parameters2
    smartLinkId := smartLinkId
    clickId := clickId }

/-- JS object spread `{...primary, ...secondary}`: start from `primary`
and assign every entry of `secondary` in order. -/
def spreadMerge (p s : List (String × String)) : List (String × String) :=
  s.foldl (fun acc kv => jsMapSet acc kv.1 kv.2) p

/-- Model of `mergeDeepLinkData` (src/index.tsx:672). -/
def mergeDeepLinkData (primary : DeepLinkData)
    (secondary : Option DeepLinkData) : DeepLinkData :=
  match secondary with
  | none => primary
  | some sec =>
    { url := jsOrStr sec.url primary.url
      path := jsOrStr sec.path primary.path
      smartLinkId := jsOrStr sec.smartLinkId primary.smartLinkId
      clickId := jsOrStr sec.clickId primary.clickId
      parameters := spreadMerge primary.parameters sec.parameters }

/-- Model of `enrichWithBackendAttribution` (src/index.tsx:697): a pass-through. -/
def enrichWithBackendAttribution (data : DeepLinkData) (_url : String) :
    DeepLinkData :=
  data

/-- The field-by-field comparison of `notifyDeepLinkListeners`
(src/index.tsx:730): `url`, `path`, `smartLinkId` and `clickId` are
compared with `===` and the parameter objects via `JSON.stringify`,
which on insertion-ordered string-valued objects coincides with equality
of the entry lists. -/
def sameDeepLinkData (a b : DeepLinkData) : Bool :=
  a.url = b.url && a.path = b.path && a.parameters = b.parameters &&
    a.smartLinkId = b.smartLinkId && a.clickId = b.clickId

/-- The suppression guard of `notifyDeepLinkListeners`: compare with the
cached `lastDeepLinkData` when one exists. -/
def jsSameAsLast (last : Option DeepLinkData) (d : DeepLinkData) : Bool :=
  match last with
  | some l => sameDeepLinkData l d
  | none => false

/-- Ledger-level effect of `notifyDeepLinkListeners` (src/index.tsx:728):
returns the new `lastDeepLinkData` cache and whether the record was
delivered to the listeners (a suppressed duplicate is not). -/
def notifyDeepLinkListeners (last : Option DeepLinkData)
    (d : DeepLinkData) : Option DeepLinkData × Bool :=
  if jsSameAsLast last d then (last, false) else (some d, true)

/-- The mutable state of the `LinkzlySDK` singleton that the deep-link
pipeline reads and writes. -/
structure SDKState where
  isConfigured : Bool
  pendingUrl : Option String
  processedUrls : List (String × Nat)
  lastDeepLinkData : Option DeepLinkData
  pendingAttributionUrls : List String
deriving Repr, DecidableEq

/-- Result of running one pipeline entry point: the re-assembled state,
the records passed to `notifyDeepLinkListeners`, and the records it
actually delivered to the registered listeners. -/
structure ProcResult where
  state : SDKState
  notifyCalls : List DeepLinkData
  notified : List DeepLinkData
deriving Repr, DecidableEq

/-- Model of `cleanupOldProcessedUrls` (src/index.tsx:714): drop entries older
than one hour. -/
def cleanupOldProcessedUrls (m : List (String × Nat)) (now : Nat) :
    List (String × Nat) :=
  m.filter (fun e => !(decide (now - e.2 > 3600000)))

/-- Model of `processDeepLink` (src/index.tsx:544).  `now` is `Date.now()` at
entry; `native` is the outcome of the awaited
`handleUniversalLink(url)` call — the only step of the `try` block that
can throw (`parseUrlToDeepLinkData`, `mergeDeepLinkData`,
`enrichWithBackendAttribution` and `notifyDeepLinkListeners` are total):
`.ok d` is a fulfilled promise carrying `d` (`none` = `null`),
`.error e` a rejection, which lands in the `catch` fallback. -/
def processDeepLink (s : SDKState) (url : String) (now : Nat)
    (native : Except String (Option DeepLinkData)) : ProcResult :=
  let processed0 := cleanupOldProcessedUrls s.processedUrls now
  let suppressed : Bool :=
    match jsMapGet processed0 url with
    | some t => !(t = 0 : Bool) && decide (now - t < 5000)
    | none => false
  if suppressed then
    { state := { s with processedUrls := processed0 }
      notifyCalls := []
      notified := [] }
  else
    let processed1 := jsMapSet processed0 url now
    let pending1 := jsSetAdd s.pendingAttributionUrls url
    if !s.isConfigured then
      { state := { s with
          processedUrls := processed1
          pendingAttributionUrls := jsSetDelete pending1 url
          pendingUrl := some url }
        notifyCalls := []
        notified := [] }
    else
      let immediateData := parseUrlToDeepLinkData url
      match native with
      | .ok nativeData =>
        let mergedData := mergeDeepLinkData immediateData nativeData
        let enrichedData := enrichWithBackendAttribution mergedData url
        let r := notifyDeepLinkListeners s.lastDeepLinkData enrichedData
        { state := { s with
            processedUrls := processed1
            pendingAttributionUrls := jsSetDelete pending1 url
            lastDeepLinkData := r.1 }
          notifyCalls := [enrichedData]
          notified := if r.2 then [enrichedData] else [] }
      | .error _ =>
        let fallbackData := parseUrlToDeepLinkData url
        let r := notifyDeepLinkListeners s.lastDeepLinkData fallbackData
        { state := { s with
            processedUrls := processed1
            pendingAttributionUrls := jsSetDelete pending1 url
            lastDeepLinkData := r.1 }
          notifyCalls := [fallbackData]
          notified := if r.2 then [fallbackData] else [] }

/-- The record `processDeepLink` hands to `notifyDeepLinkListeners` on
the configured, non-suppressed path, as a function of the native call's
outcome. -/
def primaryRecord (url : String) (native : Except String (Option DeepLinkData)) :
    DeepLinkData :=
  match native with
  | .ok nd =>
    enrichWithBackendAttribution
      (mergeDeepLinkData (parseUrlToDeepLinkData url) nd) url
  | .error _ => parseUrlToDeepLinkData url

/-- Model of `configure` (src/index.tsx:104), restricted to its deep-link ledger
effect after the native `configure` call succeeds: set `isConfigured`,
then replay a stashed pending URL through `processDeepLink` and clear
it.  (`setupAutomaticDeepLinking` and the fire-and-forget `trackOpen` do
not touch the ledger.)  `now`/`native` describe the replayed call. -/
def configure (s : SDKState) (now : Nat)
    (native : Except String (Option DeepLinkData)) : ProcResult :=
  let s1 := { s with isConfigured := true }
  match s1.pendingUrl with
  | some pu =>
    let r := processDeepLink s1 pu now native
    { r with state := { r.state with pendingUrl := none } }
  | none => { state := s1, notifyCalls := [], notified := [] }

/-- The ``LinkzlyDeepLinkReceived`` handler installed by
`addDeepLinkListener` (src/index.tsx:392-431): suppress when the URL is
in flight, then when it is inside the 2000 ms window of `processedUrls`;
otherwise stamp `processedUrls` (when a URL is present) and notify. -/
def nativeDeepLinkEvent (s : SDKState) (data : DeepLinkData) (now : Nat) :
    ProcResult :=
  let suppressedPending : Bool :=
    match data.url with
    | some u => jsSetHas s.pendingAttributionUrls u
    | none => false
  if suppressedPending then
    { state := s, notifyCalls := [], notified := [] }
  else
    let step : List (String × Nat) × Bool :=
      match data.url with
      | some u =>
        match jsMapGet s.processedUrls u with
        | some t =>
          if !(t = 0 : Bool) && decide (now - t < 2000) then
            (s.processedUrls, true)
          else (jsMapSet s.processedUrls u now, false)
        | none => (jsMapSet s.processedUrls u now, false)
      | none => (s.processedUrls, false)
    if step.2 then
      { state := s, notifyCalls := [], notified := [] }
    else
      let r := notifyDeepLinkListeners s.lastDeepLinkData data
      { state := { s with processedUrls := step.1, lastDeepLinkData := r.1 }
        notifyCalls := [data]
        notified := if r.2 then [data] else [] }

/-- Listener fan-out of `notifyDeepLinkListeners` (src/index.tsx:751):
`forEach` over the listener set with a per-listener `try`/`catch`.  A
listener is a function of the delivered record whose outcome is `.ok ()`
or a thrown `.error`.  Returns the indices invoked (each receives the
single record `d`) and the exception escaping the dispatch, if any. -/
def deepLinkForEachFrom (d : DeepLinkData) (i : Nat) :
    List (DeepLinkData → Except String Unit) → List Nat × Option String
  | [] => ([], none)
  | l :: rest =>
    match l d with
    | .ok _ =>
      let r := deepLinkForEachFrom d (i + 1) rest
      (i :: r.1, r.2)
    | .error _ =>
      let r := deepLinkForEachFrom d (i + 1) rest
      (i :: r.1, r.2)

/-- Fan-out of the deep-link channel, indices from 0. -/
def deepLinkForEach (d : DeepLinkData)
    (ls : List (DeepLinkData → Except String Unit)) : List Nat × Option String :=
  deepLinkForEachFrom d 0 ls

/-- Listener fan-out of the ``LinkzlyUniversalLinkReceived`` handler
(src/index.tsx:465): `this.universalLinkListeners.forEach((l) =>
l(data))` with no `try`/`catch`, so a throwing listener aborts the
`forEach` and the exception escapes the handler. -/
def universalForEachFrom (d : UniversalLinkEvent) (i : Nat) :
    List (UniversalLinkEvent → Except String Unit) → List Nat × Option String
  | [] => ([], none)
  | l :: rest =>
    match l d with
    | .ok _ =>
      let r := universalForEachFrom d (i + 1) rest
      (i :: r.1, r.2)
    | .error e => ([i], some e)

/-- Fan-out of the universal-link channel, indices from 0. -/
def universalForEach (d : UniversalLinkEvent)
    (ls : List (UniversalLinkEvent → Except String Unit)) :
    List Nat × Option String :=
  universalForEachFrom d 0 ls

/-- Spec-side field combinator (§4.2 of the specification): the
secondary value wins when present and non-empty, else the primary. -/
def specNonEmptyWins (sec prim : Option String) : Option String :=
  match sec with
  | some s => if s ≠ "" then some s else prim
  | none => prim

/-- Spec-side parameter-union lookup (§4.2): secondary's entry wins on a
key collision, else primary's. -/
def specParamLookup (sec prim : List (String × String)) (k : String) :
    Option String :=
  match jsMapGet sec k with
  | some v => some v
  | none => jsMapGet prim k

theorem asString_toList (s : String) : s.toList.asString = s := by
  cases s
  rfl

theorem toList_append (a b : String) :
    (a ++ b).toList = a.toList ++ b.toList := by
  cases a; cases b
  rfl

theorem toList_eq_nil_iff (s : String) : s.toList = [] ↔ s = "" := by
  cases s with
  | mk data =>
    constructor
    · intro h
      have hd : data = [] := h
      rw [hd]
    · intro h
      rw [h]
      rfl

theorem jsMapGet_eq_none_of_not_mem {α : Type} {m : List (String × α)}
    {k : String} (h : k ∉ m.map Prod.fst) : jsMapGet m k = none := by
  induction m with
  | nil => rfl
  | cons e rest ih =>
    obtain ⟨k0, v0⟩ := e
    simp only [List.map_cons, List.mem_cons] at h
    push_neg at h
    have h0 : k0 ≠ k := fun hx => h.1 hx.symm
    simp [jsMapGet_cons, h0, ih h.2]

theorem jsMapGet_cleanup {m : List (String × Nat)} {k : String} {v now : Nat}
    (h : jsMapGet m k = some v) (h2 : ¬ now - v > 3600000) :
    jsMapGet (cleanupOldProcessedUrls m now) k = some v := by
  induction m with
  | nil => simp at h
  | cons e rest ih =>
    obtain ⟨k0, v0⟩ := e
    by_cases h0 : k0 = k
    · subst h0
      simp only [jsMapGet_cons, if_pos rfl] at h
      obtain rfl : v0 = v := by injection h
      simp [cleanupOldProcessedUrls, List.filter_cons, h2]
    · simp only [jsMapGet_cons, if_neg h0] at h
      by_cases hkeep : now - v0 > 3600000 <;>
        simp [cleanupOldProcessedUrls, List.filter_cons, hkeep, h0] at ih ⊢ <;>
        simpa [cleanupOldProcessedUrls] using ih h

theorem jsOrStr_eq_specNonEmptyWins (a b : Option String) :
    jsOrStr a b = specNonEmptyWins a b := by
  cases a with
  | none => rfl
  | some s =>
    by_cases h : s = "" <;> simp [jsOrStr, specNonEmptyWins, h]

theorem jsMapGet_spreadMerge {s : List (String × String)}
    (hs : (s.map Prod.fst).Nodup) (p : List (String × String)) (k : String) :
    jsMapGet (spreadMerge p s) k = specParamLookup s p k := by
  induction s generalizing p with
  | nil => rfl
  | cons e rest ih =>
    obtain ⟨k0, v0⟩ := e
    simp only [List.map_cons, List.nodup_cons] at hs
    have hstep : spreadMerge p ((k0, v0) :: rest) =
        spreadMerge (jsMapSet p k0 v0) rest := rfl
    rw [hstep, ih hs.2]
    by_cases hk : k0 = k
    · subst hk
      have hnone : jsMapGet rest k0 = none :=
        jsMapGet_eq_none_of_not_mem hs.1
      simp [specParamLookup, hnone, jsMapGet_jsMapSet_self]
    · have hne : ¬ k0 = k := hk
      simp [specParamLookup, jsMapGet_cons, hne,
        jsMapGet_jsMapSet_ne p k0 k v0 hk]

/-- C4: `mergeDeepLinkData` returns `primary` unchanged when `secondary`
is absent; otherwise each scalar field (`url`, `path`, `smartLinkId`,
`clickId`) takes the secondary's value when present and non-empty and the
primary's otherwise, and the parameter map is the shallow union of
primary's then secondary's entries with secondary winning on key
collision; merging `{path: "/a", parameters: {x: 1}}` with
`{path: "/b", parameters: {y: 2}}` yields
`{path: "/b", parameters: {x: 1, y: 2}}`. -/
theorem C4_merge_contract (p sec : DeepLinkData) (k : String)
    (hs : (sec.parameters.map Prod.fst).Nodup) :
    mergeDeepLinkData p none = p
    ∧ (mergeDeepLinkData p (some sec)).url = specNonEmptyWins sec.url p.url
    ∧ (mergeDeepLinkData p (some sec)).path =
        specNonEmptyWins sec.path p.path
    ∧ (mergeDeepLinkData p (some sec)).smartLinkId =
        specNonEmptyWins sec.smartLinkId p.smartLinkId
    ∧ (mergeDeepLinkData p (some sec)).clickId =
        specNonEmptyWins sec.clickId p.clickId
    ∧ jsMapGet (mergeDeepLinkData p (some sec)).parameters k =
        specParamLookup sec.parameters p.parameters k
    ∧ mergeDeepLinkData
        { url := none, path := some "/a", parameters := [("x", "1")],
          smartLinkId := none, clickId := none }
        (some { url := none, path := some "/b", parameters := [("y", "2")],
                smartLinkId := none, clickId := none }) =
      { url := none, path := some "/b",
        parameters := [("x", "1"), ("y", "2")],
        smartLinkId := none, clickId := none } := by
  refine ⟨rfl, ?_, ?_, ?_, ?_, ?_, ?_⟩
  · exact jsOrStr_eq_specNonEmptyWins sec.url p.url
  · exact jsOrStr_eq_specNonEmptyWins sec.path p.path
  · exact jsOrStr_eq_specNonEmptyWins sec.smartLinkId p.smartLinkId
  · exact jsOrStr_eq_specNonEmptyWins sec.clickId p.clickId
  · exact jsMapGet_spreadMerge hs p.parameters k
  · decide

/-- Witness for C4 at concrete records. -/
theorem C4_merge_contract_witness :
    ((([("b", "2")] : List (String × String)).map Prod.fst).Nodup)
    ∧ (mergeDeepLinkData
        { url := some "u", path := some "/x", parameters := [("a", "1")],
          smartLinkId := none, clickId := none } none
      = { url := some "u", path := some "/x", parameters := [("a", "1")],
          smartLinkId := none, clickId := none }
    ∧ (mergeDeepLinkData
        { url := some "u", path := some "/x", parameters := [("a", "1")],
          smartLinkId := none, clickId := none }
        (some { url := none, path := some "/y", parameters := [("b", "2")],
                smartLinkId := some "s", clickId := none })).url =
        specNonEmptyWins none (some "u")
    ∧ (mergeDeepLinkData
        { url := some "u", path := some "/x", parameters := [("a", "1")],
          smartLinkId := none, clickId := none }
        (some { url := none, path := some "/y", parameters := [("b", "2")],
                smartLinkId := some "s", clickId := none })).path =
        specNonEmptyWins (some "/y") (some "/x")
    ∧ (mergeDeepLinkData
        { url := some "u", path := some "/x", parameters := [("a", "1")],
          smartLinkId := none, clickId := none }
        (some { url := none, path := some "/y", parameters := [("b", "2")],
                smartLinkId := some "s", clickId := none })).smartLinkId =
        specNonEmptyWins (some "s") none
    ∧ (mergeDeepLinkData
        { url := some "u", path := some "/x", parameters := [("a", "1")],
          smartLinkId := none, clickId := none }
        (some { url := none, path := some "/y", parameters := [("b", "2")],
                smartLinkId := some "s", clickId := none })).clickId =
        specNonEmptyWins none none
    ∧ jsMapGet (mergeDeepLinkData
        { url := some "u", path := some "/x", parameters := [("a", "1")],
          smartLinkId := none, clickId := none }
        (some { url := none, path := some "/y", parameters := [("b", "2")],
                smartLinkId := some "s", clickId := none })).parameters "a" =
        specParamLookup [("b", "2")] [("a", "1")] "a"
    ∧ mergeDeepLinkData
        { url := none, path := some "/a", parameters := [("x", "1")],
          smartLinkId := none, clickId := none }
        (some { url := none, path := some "/b", parameters := [("y", "2")],
                smartLinkId := none, clickId := none }) =
      { url := none, path := some "/b",
        parameters := [("x", "1"), ("y", "2")],
        smartLinkId := none, clickId := none }) :=
  ⟨by decide,
   C4_merge_contract
     { url := some "u", path := some "/x", parameters := [("a", "1")],
       smartLinkId := none, clickId := none }
     { url := none, path := some "/y", parameters := [("b", "2")],
       smartLinkId := some "s", clickId := none }
     "a" (by decide)⟩

theorem standardMatchGroup_concat {scheme host seg : List Char}
    (hs1 : scheme ≠ []) (hs2 : ':' ∉ scheme) (hh1 : host ≠ [])
    (hh2 : '/' ∉ host) (hseg : seg.any lineTerm = false) :
    standardMatchGroup (scheme ++ ':' :: '/' :: '/' :: (host ++ '/' :: seg)) =
      some ('/' :: seg) := by
  unfold standardMatchGroup
  rw [splitFirst_of_not_mem hs2]
  simp [hs1, splitFirst_of_not_mem hh2, hh1, hseg]

theorem customMatch_after_standard_fails {scheme rest : List Char}
    (hs1 : scheme ≠ []) (hs2 : ':' ∉ scheme) (hr1 : rest ≠ [])
    (hr2 : '/' ∉ rest) (hr3 : rest.any lineTerm = false) :
    standardMatchGroup (scheme ++ ':' :: '/' :: '/' :: rest) = none
    ∧ customMatchGroup (scheme ++ ':' :: '/' :: '/' :: rest) = some rest := by
  constructor
  · unfold standardMatchGroup
    rw [splitFirst_of_not_mem hs2]
    simp [hs1, splitFirst_eq_none hr2]
  · unfold customMatchGroup
    rw [splitFirst_of_not_mem hs2]
    simp [hs1, hr1, hr3]

theorem processParam_clean {k v : List Char} (acc : List (String × String))
    (hk0 : k ≠ []) (hv0 : v ≠ []) (hke : '=' ∉ k) (hve : '=' ∉ v)
    (hkp : '%' ∉ k) (hvp : '%' ∉ v) :
    processParam acc (k ++ '=' :: v) = jsMapSet acc k.asString v.asString := by
  unfold processParam
  rw [splitAll_append hke, splitAll_of_not_mem hve]
  simp [hk0, hv0, decodeCore_of_not_percent hkp, decodeCore_of_not_percent hvp]

/-- C5: for every URL `scheme://host/path?k1=v1&k2=v2` (non-empty keys
and values, none reserved, no metacharacters inside the parts),
`parseUrlToDeepLinkData` yields path `"/path"` and parameters
`{k1: v1, k2: v2}`; for custom-scheme URLs with no host/path split the
path is `"/" ++ rest`; and the reserved keys are hoisted to the
top-level `smartLinkId`/`clickId` fields, as in the example
`"myapp://products?product_id=123&slid=abc&cid=xyz"`. -/
theorem C5_parse_contract
    (scheme host seg k1 v1 k2 v2 scheme2 rest2 : String)
    (hs1 : scheme ≠ "") (hs2 : ':' ∉ scheme.toList) (hs3 : '?' ∉ scheme.toList)
    (hh1 : host ≠ "") (hh2 : '/' ∉ host.toList) (hh3 : '?' ∉ host.toList)
    (hp1 : '?' ∉ seg.toList) (hp2 : seg.toList.any lineTerm = false)
    (hk1a : k1 ≠ "")
    (hk1b : ∀ c ∈ k1.toList, c ≠ '%' ∧ c ≠ '&' ∧ c ≠ '=' ∧ c ≠ '?')
    (hv1a : v1 ≠ "")
    (hv1b : ∀ c ∈ v1.toList, c ≠ '%' ∧ c ≠ '&' ∧ c ≠ '=' ∧ c ≠ '?')
    (hk2a : k2 ≠ "")
    (hk2b : ∀ c ∈ k2.toList, c ≠ '%' ∧ c ≠ '&' ∧ c ≠ '=' ∧ c ≠ '?')
    (hv2a : v2 ≠ "")
    (hv2b : ∀ c ∈ v2.toList, c ≠ '%' ∧ c ≠ '&' ∧ c ≠ '=' ∧ c ≠ '?')
    (hk12 : k1 ≠ k2)
    (hres1 : k1 ∉ ["slid", "smartLinkId", "cid", "clickId"])
    (hres2 : k2 ∉ ["slid", "smartLinkId", "cid", "clickId"])
    (hc1 : scheme2 ≠ "") (hc2 : ':' ∉ scheme2.toList)
    (hc3 : '?' ∉ scheme2.toList) (hc4 : rest2 ≠ "")
    (hc5 : '/' ∉ rest2.toList) (hc6 : '?' ∉ rest2.toList)
    (hc7 : rest2.toList.any lineTerm = false) :
    parseUrlToDeepLinkData
        (scheme ++ "://" ++ host ++ "/" ++ seg ++ "?" ++
          k1 ++ "=" ++ v1 ++ "&" ++ k2 ++ "=" ++ v2) =
      { url := some (scheme ++ "://" ++ host ++ "/" ++ seg ++ "?" ++
          k1 ++ "=" ++ v1 ++ "&" ++ k2 ++ "=" ++ v2)
        path := some ("/" ++ seg)
        parameters := [(k1, v1), (k2, v2)]
        smartLinkId := none
        clickId := none }
    ∧ parseUrlToDeepLinkData (scheme2 ++ "://" ++ rest2) =
      { url := some (scheme2 ++ "://" ++ rest2)
        path := some ("/" ++ rest2)
        parameters := []
        smartLinkId := none
        clickId := none }
    ∧ parseUrlToDeepLinkData
        "myapp://products?product_id=123&slid=abc&cid=xyz" =
      { url := some "myapp://products?product_id=123&slid=abc&cid=xyz"
        path := some "/products"
        parameters := [("product_id", "123")]
        smartLinkId := some "abc"
        clickId := some "xyz" } := by
  have hnilS : scheme.toList ≠ [] :=
    fun h => hs1 ((toList_eq_nil_iff scheme).mp h)
  have hnilH : host.toList ≠ [] :=
    fun h => hh1 ((toList_eq_nil_iff host).mp h)
  have hnilK1 : k1.toList ≠ [] :=
    fun h => hk1a ((toList_eq_nil_iff k1).mp h)
  have hnilV1 : v1.toList ≠ [] :=
    fun h => hv1a ((toList_eq_nil_iff v1).mp h)
  have hnilK2 : k2.toList ≠ [] :=
    fun h => hk2a ((toList_eq_nil_iff k2).mp h)
  have hnilV2 : v2.toList ≠ [] :=
    fun h => hv2a ((toList_eq_nil_iff v2).mp h)
  have hk1eq : '=' ∉ k1.toList := fun hm => ((hk1b _ hm).2.2.1) rfl
  have hv1eq : '=' ∉ v1.toList := fun hm => ((hv1b _ hm).2.2.1) rfl
  have hk2eq : '=' ∉ k2.toList := fun hm => ((hk2b _ hm).2.2.1) rfl
  have hv2eq : '=' ∉ v2.toList := fun hm => ((hv2b _ hm).2.2.1) rfl
  have hk1pc : '%' ∉ k1.toList := fun hm => ((hk1b _ hm).1) rfl
  have hv1pc : '%' ∉ v1.toList := fun hm => ((hv1b _ hm).1) rfl
  have hk2pc : '%' ∉ k2.toList := fun hm => ((hk2b _ hm).1) rfl
  have hv2pc : '%' ∉ v2.toList := fun hm => ((hv2b _ hm).1) rfl
  have hk1am : '&' ∉ k1.toList := fun hm => ((hk1b _ hm).2.1) rfl
  have hv1am : '&' ∉ v1.toList := fun hm => ((hv1b _ hm).2.1) rfl
  have hk2am : '&' ∉ k2.toList := fun hm => ((hk2b _ hm).2.1) rfl
  have hv2am : '&' ∉ v2.toList := fun hm => ((hv2b _ hm).2.1) rfl
  have hk1qm : '?' ∉ k1.toList := fun hm => ((hk1b _ hm).2.2.2) rfl
  have hv1qm : '?' ∉ v1.toList := fun hm => ((hv1b _ hm).2.2.2) rfl
  have hk2qm : '?' ∉ k2.toList := fun hm => ((hk2b _ hm).2.2.2) rfl
  have hv2qm : '?' ∉ v2.toList := fun hm => ((hv2b _ hm).2.2.2) rfl
  obtain ⟨hrA, hrB, hrC, hrD⟩ :
      k1 ≠ "slid" ∧ k1 ≠ "smartLinkId" ∧ k1 ≠ "cid" ∧ k1 ≠ "clickId" := by
    simpa using hres1
  obtain ⟨hsA, hsB, hsC, hsD⟩ :
      k2 ≠ "slid" ∧ k2 ≠ "smartLinkId" ∧ k2 ≠ "cid" ∧ k2 ≠ "clickId" := by
    simpa using hres2
  refine ⟨?_, ?_, ?_⟩
  · -- part A: standard URL with two query parameters
    have hUrl : (scheme ++ "://" ++ host ++ "/" ++ seg ++ "?" ++
        k1 ++ "=" ++ v1 ++ "&" ++ k2 ++ "=" ++ v2).toList =
        (scheme.toList ++ ':' :: '/' :: '/' ::
            (host.toList ++ '/' :: seg.toList)) ++
          '?' :: ((k1.toList ++ '=' :: v1.toList) ++
            '&' :: (k2.toList ++ '=' :: v2.toList)) := by
      simp [toList_append]
    have hqA : '?' ∉ (scheme.toList ++ ':' :: '/' :: '/' ::
        (host.toList ++ '/' :: seg.toList)) := by
      intro hm
      simp only [List.mem_append, List.mem_cons] at hm
      rcases hm with h | h | h | h | h | h | h
      · exact hs3 h
      · exact absurd h (by decide)
      · exact absurd h (by decide)
      · exact absurd h (by decide)
      · exact hh3 h
      · exact absurd h (by decide)
      · exact hp1 h
    have hqB : '?' ∉ ((k1.toList ++ '=' :: v1.toList) ++
        '&' :: (k2.toList ++ '=' :: v2.toList)) := by
      intro hm
      simp only [List.mem_append, List.mem_cons] at hm
      rcases hm with (h | h | h) | h | h | h | h
      · exact hk1qm h
      · exact absurd h (by decide)
      · exact hv1qm h
      · exact absurd h (by decide)
      · exact hk2qm h
      · exact absurd h (by decide)
      · exact hv2qm h
    have hampF1 : '&' ∉ (k1.toList ++ '=' :: v1.toList) := by
      intro hm
      simp only [List.mem_append, List.mem_cons] at hm
      rcases hm with h | h | h
      · exact hk1am h
      · exact absurd h (by decide)
      · exact hv1am h
    have hampF2 : '&' ∉ (k2.toList ++ '=' :: v2.toList) := by
      intro hm
      simp only [List.mem_append, List.mem_cons] at hm
      rcases hm with h | h | h
      · exact hk2am h
      · exact absurd h (by decide)
      · exact hv2am h
    have hpath : ('/' :: seg.toList).asString = "/" ++ seg := by
      rw [← asString_toList ("/" ++ seg), toList_append]
      rfl
    have hgetslid :
        jsMapGet [(k1, v1), (k2, v2)] "slid" = (none : Option String) := by
      simp [jsMapGet_cons, hrA, hsA]
    have hgetsmart :
        jsMapGet [(k1, v1), (k2, v2)] "smartLinkId" = (none : Option String) := by
      simp [jsMapGet_cons, hrB, hsB]
    have hgetcid :
        jsMapGet [(k1, v1), (k2, v2)] "cid" = (none : Option String) := by
      simp [jsMapGet_cons, hrC, hsC]
    have hgetclick :
        jsMapGet [(k1, v1), (k2, v2)] "clickId" = (none : Option String) := by
      simp [jsMapGet_cons, hrD, hsD]
    simp only [parseUrlToDeepLinkData]
    rw [hUrl, splitAll_append hqA, splitAll_of_not_mem hqB]
    simp only [List.headD, List.foldl]
    rw [standardMatchGroup_concat hnilS hs2 hnilH hh2 hp2,
      splitAll_append hampF1, splitAll_of_not_mem hampF2]
    simp only [List.foldl]
    rw [processParam_clean [] hnilK1 hnilV1 hk1eq hv1eq hk1pc hv1pc]
    rw [processParam_clean _ hnilK2 hnilV2 hk2eq hv2eq hk2pc hv2pc]
    simp only [asString_toList]
    have hset : jsMapSet (jsMapSet [] k1 v1) k2 v2 = [(k1, v1), (k2, v2)] := by
      simp [jsMapSet, hk12]
    rw [hset, hgetslid, hgetsmart, hgetcid, hgetclick,
      jsMapDelete_of_not_mem _ _ hgetslid]
    rw [jsMapDelete_of_not_mem _ _ hgetsmart,
      jsMapDelete_of_not_mem _ _ hgetcid,
      jsMapDelete_of_not_mem _ _ hgetclick, hpath]
    rfl
  · -- part B: custom-scheme URL with no host/path split and no query
    have hnilS2 : scheme2.toList ≠ [] :=
      fun h => hc1 ((toList_eq_nil_iff scheme2).mp h)
    have hnilR2 : rest2.toList ≠ [] :=
      fun h => hc4 ((toList_eq_nil_iff rest2).mp h)
    have hUrl2 : (scheme2 ++ "://" ++ rest2).toList =
        scheme2.toList ++ ':' :: '/' :: '/' :: rest2.toList := by
      simp [toList_append]
    have hq2 : '?' ∉ (scheme2.toList ++ ':' :: '/' :: '/' :: rest2.toList) := by
      intro hm
      simp only [List.mem_append, List.mem_cons] at hm
      rcases hm with h | h | h | h | h
      · exact hc3 h
      · exact absurd h (by decide)
      · exact absurd h (by decide)
      · exact absurd h (by decide)
      · exact hc6 h
    obtain ⟨hstd, hcust⟩ :=
      customMatch_after_standard_fails hnilS2 hc2 hnilR2 hc5 hc7
    have hpath2 : ('/' :: rest2.toList).asString = "/" ++ rest2 := by
      rw [← asString_toList ("/" ++ rest2), toList_append]
      rfl
    simp only [parseUrlToDeepLinkData]
    rw [hUrl2, splitAll_of_not_mem hq2]
    simp only [List.headD]
    rw [hstd, hcust, hpath2]
    rfl
  · -- part C: the concrete hoisting example
    decide

/-- Witness for C5 at concrete URLs. -/
theorem C5_parse_contract_witness :
    ("https" ≠ "" ∧ "product_id" ∉ ["slid", "smartLinkId", "cid", "clickId"])
    ∧ (parseUrlToDeepLinkData
        ("https" ++ "://" ++ "x.link" ++ "/" ++ "products" ++ "?" ++
          "product_id" ++ "=" ++ "123" ++ "&" ++ "qty" ++ "=" ++ "2") =
      { url := some ("https" ++ "://" ++ "x.link" ++ "/" ++ "products" ++
          "?" ++ "product_id" ++ "=" ++ "123" ++ "&" ++ "qty" ++ "=" ++ "2")
        path := some ("/" ++ "products")
        parameters := [("product_id", "123"), ("qty", "2")]
        smartLinkId := none
        clickId := none }
    ∧ parseUrlToDeepLinkData ("myapp" ++ "://" ++ "products") =
      { url := some ("myapp" ++ "://" ++ "products")
        path := some ("/" ++ "products")
        parameters := []
        smartLinkId := none
        clickId := none }
    ∧ parseUrlToDeepLinkData
        "myapp://products?product_id=123&slid=abc&cid=xyz" =
      { url := some "myapp://products?product_id=123&slid=abc&cid=xyz"
        path := some "/products"
        parameters := [("product_id", "123")]
        smartLinkId := some "abc"
        clickId := some "xyz" }) :=
  ⟨⟨by decide, by decide⟩,
   C5_parse_contract "https" "x.link" "products" "product_id" "123"
     "qty" "2" "myapp" "products"
     (by decide) (by decide) (by decide) (by decide) (by decide) (by decide)
     (by decide) (by decide) (by decide) (by decide) (by decide) (by decide)
     (by decide) (by decide) (by decide) (by decide) (by decide) (by decide)
     (by decide) (by decide) (by decide) (by decide) (by decide) (by decide)
     (by decide) (by decide)⟩

theorem processDeepLink_fresh (s : SDKState) (url : String) (now : Nat)
    (native : Except String (Option DeepLinkData))
    (hconf : s.isConfigured = true)
    (hfresh : jsMapGet (cleanupOldProcessedUrls s.processedUrls now) url = none)
    (hlast : jsSameAsLast s.lastDeepLinkData (primaryRecord url native) = false) :
    processDeepLink s url now native =
      { state := { s with
          processedUrls :=
            jsMapSet (cleanupOldProcessedUrls s.processedUrls now) url now
          pendingAttributionUrls :=
            jsSetDelete (jsSetAdd s.pendingAttributionUrls url) url
          lastDeepLinkData := some (primaryRecord url native) }
        notifyCalls := [primaryRecord url native]
        notified := [primaryRecord url native] } := by
  have hnotify :
      notifyDeepLinkListeners s.lastDeepLinkData (primaryRecord url native) =
        (some (primaryRecord url native), true) := by
    unfold notifyDeepLinkListeners
    rw [hlast]
    simp
  simp only [processDeepLink, hfresh, hconf]
  cases native with
  | ok nd =>
    simp only [primaryRecord] at hnotify
    simp [hnotify, primaryRecord]
  | error e =>
    simp only [primaryRecord] at hnotify
    simp [hnotify, primaryRecord]

theorem processDeepLink_suppressed (s : SDKState) (url : String)
    (now : Nat) (native : Except String (Option DeepLinkData)) {t : Nat}
    (hget : jsMapGet (cleanupOldProcessedUrls s.processedUrls now) url = some t)
    (ht0 : t ≠ 0) (htw : now - t < 5000) :
    processDeepLink s url now native =
      { state :=
          { s with processedUrls := cleanupOldProcessedUrls s.processedUrls now }
        notifyCalls := []
        notified := [] } := by
  simp only [processDeepLink, hget]
  simp [ht0, htw]

/-- C1: a URL `u` first going through the primary path
(`processDeepLink`) at time `now` yields exactly the primary path's one
notification, and a native ``LinkzlyDeepLinkReceived`` event carrying the
same `u` at any `t'` with `t' - now < 2000` is suppressed before it
reaches `notifyDeepLinkListeners` — both after the primary processing
completed (the 2000 ms `processedUrls` window) and while `u` is still in
`pendingAttributionUrls` (the in-flight check), so exactly one listener
notification happens in total. -/
theorem C1_cross_channel_dedup (s : SDKState) (url : String) (now t' : Nat)
    (native : Except String (Option DeepLinkData)) (data : DeepLinkData)
    (hconf : s.isConfigured = true)
    (hfresh : jsMapGet (cleanupOldProcessedUrls s.processedUrls now) url = none)
    (hnow : 0 < now) (ht : now ≤ t') (hwin : t' - now < 2000)
    (hdata : data.url = some url)
    (hlast : jsSameAsLast s.lastDeepLinkData (primaryRecord url native) = false) :
    (processDeepLink s url now native).notified = [primaryRecord url native]
    ∧ (nativeDeepLinkEvent (processDeepLink s url now native).state data t').notifyCalls = []
    ∧ (nativeDeepLinkEvent (processDeepLink s url now native).state data t').state =
        (processDeepLink s url now native).state
    ∧ (nativeDeepLinkEvent
        { s with
            processedUrls :=
              jsMapSet (cleanupOldProcessedUrls s.processedUrls now) url now
            pendingAttributionUrls := jsSetAdd s.pendingAttributionUrls url }
        data t').notifyCalls = [] := by
  have hproc := processDeepLink_fresh s url now native hconf hfresh hlast
  have hnoPending :
      jsSetHas (jsSetDelete (jsSetAdd s.pendingAttributionUrls url) url) url
        = false := jsSetHas_jsSetDelete _ _
  have hstamp :
      jsMapGet (jsMapSet (cleanupOldProcessedUrls s.processedUrls now) url now)
        url = some now := jsMapGet_jsMapSet_self _ _ _
  have hsupp : (!(now = 0 : Bool) && decide (t' - now < 2000)) = true := by
    simp [Nat.pos_iff_ne_zero.mp hnow, hwin]
  refine ⟨by rw [hproc], ?_, ?_, ?_⟩
  · rw [hproc]
    simp only [nativeDeepLinkEvent, hdata]
    simp [hnoPending, hstamp, hsupp]
  · rw [hproc]
    simp only [nativeDeepLinkEvent, hdata]
    simp [hnoPending, hstamp, hsupp]
  · simp only [nativeDeepLinkEvent, hdata]
    simp [jsSetHas_jsSetAdd_self]

/-- Witness for C1 at a concrete state, URL, native outcome and event. -/
theorem C1_cross_channel_dedup_witness :
    ((0 : Nat) < 10 ∧ (100 : Nat) - 10 < 2000)
    ∧ ((processDeepLink
          { isConfigured := true, pendingUrl := none, processedUrls := [],
            lastDeepLinkData := none, pendingAttributionUrls := [] }
          "app://u" 10 (.ok none)).notified =
        [primaryRecord "app://u" (.ok none)]
    ∧ (nativeDeepLinkEvent
        (processDeepLink
          { isConfigured := true, pendingUrl := none, processedUrls := [],
            lastDeepLinkData := none, pendingAttributionUrls := [] }
          "app://u" 10 (.ok none)).state
        { url := some "app://u", path := some "/u", parameters := [],
          smartLinkId := none, clickId := none } 100).notifyCalls = []
    ∧ (nativeDeepLinkEvent
        (processDeepLink
          { isConfigured := true, pendingUrl := none, processedUrls := [],
            lastDeepLinkData := none, pendingAttributionUrls := [] }
          "app://u" 10 (.ok none)).state
        { url := some "app://u", path := some "/u", parameters := [],
          smartLinkId := none, clickId := none } 100).state =
      (processDeepLink
          { isConfigured := true, pendingUrl := none, processedUrls := [],
            lastDeepLinkData := none, pendingAttributionUrls := [] }
          "app://u" 10 (.ok none)).state
    ∧ (nativeDeepLinkEvent
        { isConfigured := true, pendingUrl := none,
          processedUrls :=
            jsMapSet (cleanupOldProcessedUrls [] 10) "app://u" 10,
          lastDeepLinkData := none,
          pendingAttributionUrls := jsSetAdd [] "app://u" }
        { url := some "app://u", path := some "/u", parameters := [],
          smartLinkId := none, clickId := none } 100).notifyCalls = []) :=
  ⟨⟨by decide, by decide⟩,
   C1_cross_channel_dedup
     { isConfigured := true, pendingUrl := none, processedUrls := [],
       lastDeepLinkData := none, pendingAttributionUrls := [] }
     "app://u" 10 100 (.ok none)
     { url := some "app://u", path := some "/u", parameters := [],
       smartLinkId := none, clickId := none }
     rfl (by decide) (by decide) (by decide) (by decide) rfl (by decide)⟩

/-- C2 counterexample: with an entry one hour old in `processedUrls`, the
second `processDeepLink` call (1 ms after the first, well inside the
5000 ms window) is suppressed before parsing, native calls and
notification — but it does NOT leave all ledger state unchanged: its
pre-check sweep purges the stale entry, so `processedUrls` differs. -/
theorem C2_counterexample :
    (processDeepLink
      { isConfigured := true, pendingUrl := none,
        processedUrls := [("app://old", 0)], lastDeepLinkData := none,
        pendingAttributionUrls := [] } "app://u" 3600000
      (.ok none)).notified.length = 1
    ∧ (processDeepLink (processDeepLink
        { isConfigured := true, pendingUrl := none,
          processedUrls := [("app://old", 0)], lastDeepLinkData := none,
          pendingAttributionUrls := [] } "app://u" 3600000
        (.ok none)).state "app://u" 3600001 (.ok none)).notifyCalls = []
    ∧ (processDeepLink (processDeepLink
        { isConfigured := true, pendingUrl := none,
          processedUrls := [("app://old", 0)], lastDeepLinkData := none,
          pendingAttributionUrls := [] } "app://u" 3600000
        (.ok none)).state "app://u" 3600001 (.ok none)).notified = []
    ∧ (processDeepLink (processDeepLink
        { isConfigured := true, pendingUrl := none,
          processedUrls := [("app://old", 0)], lastDeepLinkData := none,
          pendingAttributionUrls := [] } "app://u" 3600000
        (.ok none)).state "app://u" 3600001 (.ok none)).state.processedUrls ≠
      (processDeepLink
        { isConfigured := true, pendingUrl := none,
          processedUrls := [("app://old", 0)], lastDeepLinkData := none,
          pendingAttributionUrls := [] } "app://u" 3600000
        (.ok none)).state.processedUrls := by
  decide

/-- C2 amended: calling `processDeepLink(u)` at `t1` and again at `t2`
with `t2 - t1 < 5000` (SDK configured) produces exactly one listener
notification: the second call finds `processedUrls[u] = t1` inside the
dedup window and returns before parsing, native calls or notification,
leaving the ledger unchanged EXCEPT that the pre-check lazy sweep has
purged `processedUrls` entries older than one hour. -/
theorem C2_idempotence_amended (s : SDKState) (url : String) (t1 t2 : Nat)
    (native native2 : Except String (Option DeepLinkData))
    (hconf : s.isConfigured = true)
    (hfresh : jsMapGet (cleanupOldProcessedUrls s.processedUrls t1) url = none)
    (h0 : 0 < t1) (hwin : t2 - t1 < 5000)
    (hlast : jsSameAsLast s.lastDeepLinkData (primaryRecord url native) = false) :
    (processDeepLink s url t1 native).notified = [primaryRecord url native]
    ∧ (processDeepLink (processDeepLink s url t1 native).state
        url t2 native2).notifyCalls = []
    ∧ (processDeepLink (processDeepLink s url t1 native).state
        url t2 native2).notified = []
    ∧ (processDeepLink (processDeepLink s url t1 native).state
        url t2 native2).state =
      { (processDeepLink s url t1 native).state with
          processedUrls :=
            cleanupOldProcessedUrls
              (processDeepLink s url t1 native).state.processedUrls t2 } := by
  have hproc := processDeepLink_fresh s url t1 native hconf hfresh hlast
  have hget2 : jsMapGet (cleanupOldProcessedUrls
      (processDeepLink s url t1 native).state.processedUrls t2) url = some t1 := by
    rw [hproc]
    exact jsMapGet_cleanup (jsMapGet_jsMapSet_self _ _ _) (by omega)
  have hsup := processDeepLink_suppressed
    (processDeepLink s url t1 native).state url t2 native2 hget2
    (Nat.pos_iff_ne_zero.mp h0) hwin
  refine ⟨by rw [hproc], ?_, ?_, ?_⟩
  · rw [hsup]
  · rw [hsup]
  · rw [hsup]

/-- Witness for C2 amended at a concrete state and times. -/
theorem C2_idempotence_amended_witness :
    ((0 : Nat) < 10 ∧ (12 : Nat) - 10 < 5000)
    ∧ ((processDeepLink
          { isConfigured := true, pendingUrl := none, processedUrls := [],
            lastDeepLinkData := none, pendingAttributionUrls := [] }
          "app://u" 10 (.ok none)).notified =
        [primaryRecord "app://u" (.ok none)]
    ∧ (processDeepLink
        (processDeepLink
          { isConfigured := true, pendingUrl := none, processedUrls := [],
            lastDeepLinkData := none, pendingAttributionUrls := [] }
          "app://u" 10 (.ok none)).state "app://u" 12 (.ok none)).notifyCalls = []
    ∧ (processDeepLink
        (processDeepLink
          { isConfigured := true, pendingUrl := none, processedUrls := [],
            lastDeepLinkData := none, pendingAttributionUrls := [] }
          "app://u" 10 (.ok none)).state "app://u" 12 (.ok none)).notified = []
    ∧ (processDeepLink
        (processDeepLink
          { isConfigured := true, pendingUrl := none, processedUrls := [],
            lastDeepLinkData := none, pendingAttributionUrls := [] }
          "app://u" 10 (.ok none)).state "app://u" 12 (.ok none)).state =
      { (processDeepLink
          { isConfigured := true, pendingUrl := none, processedUrls := [],
            lastDeepLinkData := none, pendingAttributionUrls := [] }
          "app://u" 10 (.ok none)).state with
          processedUrls :=
            cleanupOldProcessedUrls
              (processDeepLink
                { isConfigured := true, pendingUrl := none,
                  processedUrls := [], lastDeepLinkData := none,
                  pendingAttributionUrls := [] }
                "app://u" 10 (.ok none)).state.processedUrls 12 }) :=
  ⟨⟨by decide, by decide⟩,
   C2_idempotence_amended
     { isConfigured := true, pendingUrl := none, processedUrls := [],
       lastDeepLinkData := none, pendingAttributionUrls := [] }
     "app://u" 10 12 (.ok none) (.ok none)
     rfl (by decide) (by decide) (by decide) (by decide)⟩

/-- C3: evaluation of the code at the failing input.  A URL arriving
while the SDK is unconfigured is stashed as the single pending URL
(overwriting the previously stashed one) and removed from
`pendingAttributionUrls` immediately — but because `processDeepLink`
stamps `processedUrls[u]` BEFORE the `isConfigured` check, the replay
that `configure` performs 1000 ms later is suppressed by the 5000 ms
dedup window: `configure` clears `pendingUrl` without any listener
notification ever being produced for `u`, contradicting both the claim
and the code's own intent ("storing URL for later processing"). -/
theorem C3_pending_replay_bug :
    (processDeepLink
      { isConfigured := false, pendingUrl := some "app://earlier",
        processedUrls := [], lastDeepLinkData := none,
        pendingAttributionUrls := [] } "myapp://product" 1000
      (.ok none)).state.pendingUrl = some "myapp://product"
    ∧ jsSetHas (processDeepLink
        { isConfigured := false, pendingUrl := some "app://earlier",
          processedUrls := [], lastDeepLinkData := none,
          pendingAttributionUrls := [] } "myapp://product" 1000
        (.ok none)).state.pendingAttributionUrls "myapp://product" = false
    ∧ (processDeepLink
        { isConfigured := false, pendingUrl := some "app://earlier",
          processedUrls := [], lastDeepLinkData := none,
          pendingAttributionUrls := [] } "myapp://product" 1000
        (.ok none)).notified = []
    ∧ (configure (processDeepLink
        { isConfigured := false, pendingUrl := some "app://earlier",
          processedUrls := [], lastDeepLinkData := none,
          pendingAttributionUrls := [] } "myapp://product" 1000
        (.ok none)).state 2000 (.ok none)).state.pendingUrl = none
    ∧ (configure (processDeepLink
        { isConfigured := false, pendingUrl := some "app://earlier",
          processedUrls := [], lastDeepLinkData := none,
          pendingAttributionUrls := [] } "myapp://product" 1000
        (.ok none)).state 2000 (.ok none)).notifyCalls = []
    ∧ (configure (processDeepLink
        { isConfigured := false, pendingUrl := some "app://earlier",
          processedUrls := [], lastDeepLinkData := none,
          pendingAttributionUrls := [] } "myapp://product" 1000
        (.ok none)).state 2000 (.ok none)).notified = [] := by
  decide

/-- C6 counterexample: a query pair whose value contains `=` is NOT kept
intact as the remainder after the first `=`: for
`"myapp://it?k=a=b"` the stored value is `"a"` (the fragment between the
first and second `=`), not `"a=b"`. -/
theorem C6_counterexample :
    (parseUrlToDeepLinkData "myapp://it?k=a=b").parameters = [("k", "a")]
    ∧ jsMapGet (parseUrlToDeepLinkData "myapp://it?k=a=b").parameters "k" ≠
        some "a=b" := by
  decide

/-- C6 amended: each `&`-separated pair is split on `=`; the key is the
fragment before the first `=` and the value the fragment between the
first and second `=` (anything after a second `=` is discarded); key and
value are percent-decoded independently, and if decoding either fails
the raw undecoded key and value are stored instead of the pair being
discarded or the parse aborting. -/
theorem C6_query_pair_amended (acc : List (String × String))
    (k v extra : List Char)
    (hk : '=' ∉ k) (hv : '=' ∉ v) (hk0 : k ≠ []) (hv0 : v ≠ []) :
    processParam acc (k ++ '=' :: (v ++ '=' :: extra)) =
      processParam acc (k ++ '=' :: v)
    ∧ processParam acc (k ++ '=' :: v) =
        (match decodeCore k, decodeCore v with
         | some dk, some dv => jsMapSet acc dk.asString dv.asString
         | _, _ => jsMapSet acc k.asString v.asString) := by
  constructor
  · unfold processParam
    rw [splitAll_append hk (v ++ '=' :: extra), splitAll_append hv extra,
      splitAll_append hk v, splitAll_of_not_mem hv]
  · unfold processParam
    rw [splitAll_append hk v, splitAll_of_not_mem hv]
    simp [hk0, hv0]

/-- Witness for C6 amended at a concrete pair (with a value whose decode
fails, exercising the raw fallback). -/
theorem C6_query_pair_amended_witness :
    ('=' ∉ ['k'] ∧ ((['k'] : List Char) ≠ []))
    ∧ (processParam [] (['k'] ++ '=' :: (['%', 'Z'] ++ '=' :: ['b'])) =
        processParam [] (['k'] ++ '=' :: ['%', 'Z'])
    ∧ processParam [] (['k'] ++ '=' :: ['%', 'Z']) =
        (match decodeCore ['k'], decodeCore ['%', 'Z'] with
         | some dk, some dv => jsMapSet [] dk.asString dv.asString
         | _, _ => jsMapSet [] (['k'] : List Char).asString
             (['%', 'Z'] : List Char).asString)) :=
  ⟨⟨by decide, by decide⟩,
   C6_query_pair_amended [] ['k'] ['%', 'Z'] ['b']
     (by decide) (by decide) (by decide) (by decide)⟩

theorem deleteChain_reserved (P : List (String × String)) :
    jsMapGet (jsMapDelete (jsMapDelete (jsMapDelete (jsMapDelete P
      "slid") "smartLinkId") "cid") "clickId") "slid" = none
    ∧ jsMapGet (jsMapDelete (jsMapDelete (jsMapDelete (jsMapDelete P
        "slid") "smartLinkId") "cid") "clickId") "smartLinkId" = none
    ∧ jsMapGet (jsMapDelete (jsMapDelete (jsMapDelete (jsMapDelete P
        "slid") "smartLinkId") "cid") "clickId") "cid" = none
    ∧ jsMapGet (jsMapDelete (jsMapDelete (jsMapDelete (jsMapDelete P
        "slid") "smartLinkId") "cid") "clickId") "clickId" = none := by
  refine ⟨?_, ?_, ?_, ?_⟩
  · rw [jsMapGet_jsMapDelete_ne _ _ _ (by decide),
      jsMapGet_jsMapDelete_ne _ _ _ (by decide),
      jsMapGet_jsMapDelete_ne _ _ _ (by decide)]
    exact jsMapGet_jsMapDelete_self _ _
  · rw [jsMapGet_jsMapDelete_ne _ _ _ (by decide),
      jsMapGet_jsMapDelete_ne _ _ _ (by decide)]
    exact jsMapGet_jsMapDelete_self _ _
  · rw [jsMapGet_jsMapDelete_ne _ _ _ (by decide)]
    exact jsMapGet_jsMapDelete_self _ _
  · exact jsMapGet_jsMapDelete_self _ _

/-- C7 counterexample: a record delivered through the native
``LinkzlyDeepLinkReceived`` channel reaches the listeners with the raw
attribution key `slid` still inside `parameters` — the handler passes
the native payload to `notifyDeepLinkListeners` without hoisting or
stripping. -/
theorem C7_counterexample :
    (nativeDeepLinkEvent
      { isConfigured := true, pendingUrl := none, processedUrls := [],
        lastDeepLinkData := none, pendingAttributionUrls := [] }
      { url := some "https://x.link/p", path := some "/p",
        parameters := [("slid", "abc")], smartLinkId := none,
        clickId := none } 1000).notified =
      [{ url := some "https://x.link/p", path := some "/p",
         parameters := [("slid", "abc")], smartLinkId := none,
         clickId := none }]
    ∧ jsMapGet
        ((nativeDeepLinkEvent
          { isConfigured := true, pendingUrl := none, processedUrls := [],
            lastDeepLinkData := none, pendingAttributionUrls := [] }
          { url := some "https://x.link/p", path := some "/p",
            parameters := [("slid", "abc")], smartLinkId := none,
            clickId := none } 1000).notified.headD
            { url := none, path := none, parameters := [],
              smartLinkId := none, clickId := none }).parameters "slid" =
        some "abc" := by
  decide

/-- C7 amended: records produced by local parsing never carry the
reserved keys `slid`/`smartLinkId`/`cid`/`clickId` in `parameters`, and
`mergeDeepLinkData` preserves their absence when neither input has them;
the native event channel, however, passes `parameters` through without
stripping, so the invariant holds only for locally produced records (and
for native payloads that already respect it). -/
theorem C7_reserved_keys_amended (url k : String) (p sec : DeepLinkData)
    (hk : k = "slid" ∨ k = "smartLinkId" ∨ k = "cid" ∨ k = "clickId")
    (hp : jsMapGet p.parameters k = none)
    (hsec : jsMapGet sec.parameters k = none)
    (hs : (sec.parameters.map Prod.fst).Nodup) :
    jsMapGet (parseUrlToDeepLinkData url).parameters k = none
    ∧ jsMapGet (mergeDeepLinkData p (some sec)).parameters k = none := by
  constructor
  · rcases hk with rfl | rfl | rfl | rfl
    · exact (deleteChain_reserved _).1
    · exact (deleteChain_reserved _).2.1
    · exact (deleteChain_reserved _).2.2.1
    · exact (deleteChain_reserved _).2.2.2
  · have hm : (mergeDeepLinkData p (some sec)).parameters =
        spreadMerge p.parameters sec.parameters := rfl
    rw [hm, jsMapGet_spreadMerge hs]
    simp [specParamLookup, hsec, hp]

/-- Witness for C7 amended at a concrete URL, key and records. -/
theorem C7_reserved_keys_amended_witness :
    ("slid" = "slid" ∨ "slid" = "smartLinkId" ∨ "slid" = "cid" ∨
      "slid" = "clickId")
    ∧ (jsMapGet
        (parseUrlToDeepLinkData "myapp://a?slid=1&x=2").parameters "slid" = none
    ∧ jsMapGet (mergeDeepLinkData
        { url := none, path := some "/a", parameters := [("x", "1")],
          smartLinkId := none, clickId := none }
        (some { url := none, path := some "/b", parameters := [("y", "2")],
                smartLinkId := none, clickId := none })).parameters "slid" =
        none) :=
  ⟨by decide,
   C7_reserved_keys_amended "myapp://a?slid=1&x=2" "slid"
     { url := none, path := some "/a", parameters := [("x", "1")],
       smartLinkId := none, clickId := none }
     { url := none, path := some "/b", parameters := [("y", "2")],
       smartLinkId := none, clickId := none }
     (by decide) (by decide) (by decide) (by decide)⟩

/-- C8 counterexample: on the universal-link channel, a listener that
throws (index 0) aborts the `forEach`, so the listener registered after
it (index 1) is never invoked and the exception escapes the dispatching
handler — the channel does not isolate listener failures. -/
theorem C8_counterexample :
    (universalForEach
      { url := "https://x.link/p", path := none, parameters := [],
        attributionData := none }
      [fun _ => .error "boom", fun _ => .ok ()]).1 = [0]
    ∧ (universalForEach
        { url := "https://x.link/p", path := none, parameters := [],
          attributionData := none }
        [fun _ => .error "boom", fun _ => .ok ()]).2 = some "boom"
    ∧ (1 : Nat) ∉ (universalForEach
        { url := "https://x.link/p", path := none, parameters := [],
          attributionData := none }
        [fun _ => .error "boom", fun _ => .ok ()]).1 := by
  refine ⟨rfl, rfl, ?_⟩
  decide

theorem deepLinkForEachFrom_eq (d : DeepLinkData)
    (ls : List (DeepLinkData → Except String Unit)) : ∀ i : Nat,
    deepLinkForEachFrom d i ls = (List.range' i ls.length, none) := by
  induction ls with
  | nil => intro i; rfl
  | cons l rest ih =>
    intro i
    unfold deepLinkForEachFrom
    cases l d <;> simp [ih, List.range']

/-- C8 amended: on the deep-link channel the per-listener `try`/`catch`
guarantees that every registered listener is invoked with the same
record regardless of earlier listeners throwing, and no exception
escapes the dispatch; on the universal-link channel this fails (see the
counterexample). -/
theorem C8_listener_isolation_amended (d : DeepLinkData)
    (ls : List (DeepLinkData → Except String Unit)) :
    (deepLinkForEach d ls).1 = List.range ls.length
    ∧ (deepLinkForEach d ls).2 = none := by
  unfold deepLinkForEach
  rw [deepLinkForEachFrom_eq d ls 0, List.range_eq_range']
  exact ⟨rfl, rfl⟩

/-- C9: when the native `handleUniversalLink` call rejects (the only
fallible step of the `try` block after the dedup check),
`processDeepLink` removes the URL from `pendingAttributionUrls` and
still hands the purely locally-parsed record `parseUrlToDeepLinkData u`
to `notifyDeepLinkListeners`, which delivers it to the listeners. -/
theorem C9_error_fallback (s : SDKState) (url : String) (now : Nat)
    (e : String)
    (hconf : s.isConfigured = true)
    (hfresh : jsMapGet (cleanupOldProcessedUrls s.processedUrls now) url = none)
    (hlast : jsSameAsLast s.lastDeepLinkData (parseUrlToDeepLinkData url) = false) :
    (processDeepLink s url now (.error e)).notifyCalls =
      [parseUrlToDeepLinkData url]
    ∧ (processDeepLink s url now (.error e)).notified =
        [parseUrlToDeepLinkData url]
    ∧ jsSetHas
        (processDeepLink s url now (.error e)).state.pendingAttributionUrls
        url = false := by
  have hrec : primaryRecord url (.error e) = parseUrlToDeepLinkData url := rfl
  have hproc := processDeepLink_fresh s url now (.error e) hconf hfresh
    (by rw [hrec]; exact hlast)
  refine ⟨?_, ?_, ?_⟩
  · rw [hproc, hrec]
  · rw [hproc, hrec]
  · rw [hproc]
    exact jsSetHas_jsSetDelete _ _

/-- Witness for C9 at a concrete state, URL and error. -/
theorem C9_error_fallback_witness :
    ((true : Bool) = true)
    ∧ ((processDeepLink
          { isConfigured := true, pendingUrl := none, processedUrls := [],
            lastDeepLinkData := none, pendingAttributionUrls := [] }
          "app://u" 5 (.error "boom")).notifyCalls =
        [parseUrlToDeepLinkData "app://u"]
    ∧ (processDeepLink
          { isConfigured := true, pendingUrl := none, processedUrls := [],
            lastDeepLinkData := none, pendingAttributionUrls := [] }
          "app://u" 5 (.error "boom")).notified =
        [parseUrlToDeepLinkData "app://u"]
    ∧ jsSetHas
        (processDeepLink
          { isConfigured := true, pendingUrl := none, processedUrls := [],
            lastDeepLinkData := none, pendingAttributionUrls := [] }
          "app://u" 5 (.error "boom")).state.pendingAttributionUrls
        "app://u" = false) :=
  ⟨rfl,
   C9_error_fallback
     { isConfigured := true, pendingUrl := none, processedUrls := [],
       lastDeepLinkData := none, pendingAttributionUrls := [] }
     "app://u" 5 "boom" rfl (by decide) (by decide)⟩

/-- C10: a native ``LinkzlyDeepLinkReceived`` record with no `url` field
skips both dedup checks (the in-flight suppression and the 2000 ms
window), writes no `processedUrls` entry, and goes straight to
`notifyDeepLinkListeners`, which delivers it unless it is field-by-field
identical to `lastDeepLinkData`. -/
theorem C10_urlless_native_event (s : SDKState) (data : DeepLinkData)
    (now : Nat) (hurl : data.url = none) :
    (nativeDeepLinkEvent s data now).state.processedUrls = s.processedUrls
    ∧ (nativeDeepLinkEvent s data now).state.pendingAttributionUrls =
        s.pendingAttributionUrls
    ∧ (nativeDeepLinkEvent s data now).notifyCalls = [data]
    ∧ (nativeDeepLinkEvent s data now).notified =
        (if jsSameAsLast s.lastDeepLinkData data then [] else [data]) := by
  simp only [nativeDeepLinkEvent, hurl]
  by_cases h : jsSameAsLast s.lastDeepLinkData data <;>
    simp [notifyDeepLinkListeners, h]

/-- Witness for C10: a url-less record is delivered even while other
URLs sit in `pendingAttributionUrls` and `processedUrls`, and neither
ledger component changes. -/
theorem C10_urlless_native_event_witness :
    (({ url := none, path := some "/p", parameters := [("a", "1")],
        smartLinkId := some "s", clickId := none } : DeepLinkData).url = none)
    ∧ ((nativeDeepLinkEvent
        { isConfigured := true, pendingUrl := none,
          processedUrls := [("app://u", 5)], lastDeepLinkData := none,
          pendingAttributionUrls := ["app://u"] }
        { url := none, path := some "/p", parameters := [("a", "1")],
          smartLinkId := some "s", clickId := none } 6).state.processedUrls =
        [("app://u", 5)]
    ∧ (nativeDeepLinkEvent
        { isConfigured := true, pendingUrl := none,
          processedUrls := [("app://u", 5)], lastDeepLinkData := none,
          pendingAttributionUrls := ["app://u"] }
        { url := none, path := some "/p", parameters := [("a", "1")],
          smartLinkId := some "s", clickId := none } 6).state.pendingAttributionUrls =
        ["app://u"]
    ∧ (nativeDeepLinkEvent
        { isConfigured := true, pendingUrl := none,
          processedUrls := [("app://u", 5)], lastDeepLinkData := none,
          pendingAttributionUrls := ["app://u"] }
        { url := none, path := some "/p", parameters := [("a", "1")],
          smartLinkId := some "s", clickId := none } 6).notifyCalls =
        [{ url := none, path := some "/p", parameters := [("a", "1")],
           smartLinkId := some "s", clickId := none }]
    ∧ (nativeDeepLinkEvent
        { isConfigured := true, pendingUrl := none,
          processedUrls := [("app://u", 5)], lastDeepLinkData := none,
          pendingAttributionUrls := ["app://u"] }
        { url := none, path := some "/p", parameters := [("a", "1")],
          smartLinkId := some "s", clickId := none } 6).notified =
        (if jsSameAsLast none
            { url := none, path := some "/p", parameters := [("a", "1")],
              smartLinkId := some "s", clickId := none } then []
         else [{ url := none, path := some "/p", parameters := [("a", "1")],
                 smartLinkId := some "s", clickId := none }])) :=
  ⟨rfl,
   C10_urlless_native_event
     { isConfigured := true, pendingUrl := none,
       processedUrls := [("app://u", 5)], lastDeepLinkData := none,
       pendingAttributionUrls := ["app://u"] }
     { url := none, path := some "/p", parameters := [("a", "1")],
       smartLinkId := some "s", clickId := none } 6 rfl⟩

end Linkzly
